import Mathlib

/-!
Verification of the git-smart sync workflow.

The program is embedded shallowly: the external git tool is modelled as an
environment mapping each argument list to a raw result (combined output text
and a success flag).  Within a single sync run every distinct argument list
is issued at most once, so this per-argument-list environment is a faithful
model of one run.  The orchestrator returns the ordered trace of issued
commands together with a terminal outcome.
-/

namespace GitSmart

/-- Text is modelled as a list of characters. -/
abbrev Str := List Char

/-- Raw result of one subprocess invocation: combined stdout and stderr text,
and whether the process exited with status zero. -/
structure CmdResult where
  output : Str
  ok : Bool

/-- The external git tool, as seen by one sync run: a map from argument lists
to raw results. -/
abbrev GitEnv := List Str → CmdResult

/-- Whitespace as trimmed by the Go strings.TrimSpace call in Run
(the Latin-1 part of unicode.IsSpace). -/
def isGoSpace (c : Char) : Bool :=
  c = ' ' || c = '\t' || c = '\n' || c = '\x0b' || c = '\x0c' || c = '\r' ||
  c = '\x85' || c = '\xa0'

/-- Surrounding-whitespace trim, as strings.TrimSpace does in Run. -/
def trimChars (s : Str) : Str :=
  ((s.dropWhile isGoSpace).reverse.dropWhile isGoSpace).reverse

/-- Embedding of internal/git Run: invoke the tool, trim the combined output;
on success the error component is none, on failure it is the trimmed output
itself (errors.New(trimmedOutput)). -/
def Run (env : GitEnv) (args : List Str) : Str × Option Str :=
  let t := trimChars (env args).output
  if (env args).ok then (t, none) else (t, some t)

/-- Argument list of the is-inside-work-tree probe used by IsRepo. -/
def wtCmd : List Str := ["rev-parse".data, "--is-inside-work-tree".data]

/-- Argument list of the remote query used by GetDefaultBranch. -/
def remoteShowCmd : List Str := ["remote".data, "show".data, "origin".data]

/-- Argument list of the current-branch query used by GetCurrentBranch. -/
def headCmd : List Str := ["rev-parse".data, "--abbrev-ref".data, "HEAD".data]

/-- Argument list of the porcelain status query. -/
def statusCmd : List Str := ["status".data, "--porcelain".data]

/-- Argument list of the stash-save command. -/
def stashCmd : List Str := ["stash".data]

/-- Argument list of the stash-pop command. -/
def popCmd : List Str := ["stash".data, "pop".data]

/-- Argument list of the pull command. -/
def pullCmd : List Str := ["pull".data]

/-- Argument list of a checkout of branch b. -/
def checkoutCmd (b : Str) : List Str := ["checkout".data, b]

/-- Argument list of a rebase onto branch b. -/
def rebaseCmd (b : Str) : List Str := ["rebase".data, b]

/-- Embedding of internal/git IsRepo: the probe command succeeds. -/
def IsRepo (env : GitEnv) : Bool := (env wtCmd).ok

/-- Embedding of internal/git GetCurrentBranch: Run rev-parse --abbrev-ref HEAD. -/
def GetCurrentBranch (env : GitEnv) : Str × Option Str := Run env headCmd

/-- The literal marker text matched by the regular expression in
GetDefaultBranch. -/
def markerChars : Str := "HEAD branch:".data

/-- Whitespace in the sense of the regex class backslash-s of the Go regexp
package: tab, newline, form feed, carriage return, space. -/
def isRESpace (c : Char) : Bool :=
  c = '\t' || c = '\n' || c = '\x0c' || c = '\r' || c = ' '

/-- pat is a leading segment of s. -/
def startsWith : Str → Str → Bool
  | [], _ => true
  | _ :: _, [] => false
  | p :: ps, c :: cs => p == c && startsWith ps cs

/-- Remainder of s after the first occurrence of pat, if pat occurs in s. -/
def findSubAfter (pat : Str) : Str → Option Str
  | [] => if pat = [] then some [] else none
  | c :: cs =>
    if startsWith pat (c :: cs) then some ((c :: cs).drop pat.length)
    else findSubAfter pat cs

/-- The submatch extraction of the regex HEAD branch: backslash-s star
capture of backslash-S plus: find the first occurrence of the marker, skip
the contiguous whitespace after it, take the maximal non-whitespace run;
fail when the marker is absent or nothing non-whitespace follows it. -/
def extractDefaultBranch (s : Str) : Option Str :=
  match findSubAfter markerChars s with
  | none => none
  | some rest =>
    if (rest.dropWhile isRESpace).takeWhile (fun c => !isRESpace c) = [] then none
    else some ((rest.dropWhile isRESpace).takeWhile (fun c => !isRESpace c))

/-- Embedding of internal/git GetDefaultBranch: run remote show origin, then
extract the branch name after the HEAD branch: marker. -/
def GetDefaultBranch (env : GitEnv) : Except Str Str :=
  match Run env remoteShowCmd with
  | (_, some e) => .error ("could not query remote origin: ".data ++ e)
  | (out, none) =>
    match extractDefaultBranch out with
    | none => .error "could not determine default branch from git remote show origin".data
    | some tok => .ok tok

/-- The benign stash-pop failure test of sync step 7: the two case-insensitive
regexes amount to case-insensitive substring containment of three phrases. -/
def lowerChars (s : Str) : Str := s.map Char.toLower

/-- Substring containment of pat in s. -/
def containsSub (pat : Str) : Str → Bool
  | [] => startsWith pat []
  | c :: cs => startsWith pat (c :: cs) || containsSub pat cs

/-- Case-insensitive substring containment. -/
def containsCI (pat s : Str) : Bool := containsSub (lowerChars pat) (lowerChars s)

/-- The benign stash-pop output test from sync.go step 7. -/
def isBenignPop (out : Str) : Bool :=
  containsCI "No stash found".data out ||
  containsCI "No stash entries found".data out ||
  containsCI "Did not need to pop stash".data out

/-- The error kinds of the workflow, following the spec section 7. -/
inductive ErrKind where
  | NotARepository
  | DefaultBranchError
  | BranchResolutionError
  | StatusError
  | StashError
  | CheckoutError
  | PullError
  | RebaseConflict
  | StashPopError
deriving DecidableEq, Repr

/-- Terminal outcome of one sync run: success, or a failure kind with the
message or captured output it reports. -/
inductive Outcome where
  | success
  | failure (kind : ErrKind) (msg : Str)
deriving DecidableEq, Repr

/-- Process exit code of an outcome: 0 on success, 1 on any failure. -/
def exitCode : Outcome → Nat
  | .success => 0
  | .failure _ _ => 1

/-- Steps 3 to 7 of sync.go (checkout default, pull, checkout feature,
rebase, pop stash), parameterised by the resolved default branch d, the
original current branch c, the stash flag, and the trace so far. -/
def syncRest (env : GitEnv) (d c : Str) (didStash : Bool)
    (t : List (List Str)) : List (List Str) × Outcome :=
  match Run env (checkoutCmd d) with
  | (_, some e) =>
    if didStash then (t ++ [checkoutCmd d, popCmd], .failure .CheckoutError e)
    else (t ++ [checkoutCmd d], .failure .CheckoutError e)
  | (_, none) =>
    match Run env pullCmd with
    | (_, some e) =>
      if didStash then
        (t ++ [checkoutCmd d, pullCmd, checkoutCmd c, popCmd], .failure .PullError e)
      else
        (t ++ [checkoutCmd d, pullCmd, checkoutCmd c], .failure .PullError e)
    | (_, none) =>
      match Run env (checkoutCmd c) with
      | (_, some e) =>
        if didStash then
          (t ++ [checkoutCmd d, pullCmd, checkoutCmd c, popCmd], .failure .CheckoutError e)
        else
          (t ++ [checkoutCmd d, pullCmd, checkoutCmd c], .failure .CheckoutError e)
      | (_, none) =>
        match Run env (rebaseCmd d) with
        | (out, some _) =>
          (t ++ [checkoutCmd d, pullCmd, checkoutCmd c, rebaseCmd d],
           .failure .RebaseConflict out)
        | (_, none) =>
          if didStash then
            match Run env popCmd with
            | (popOut, some _) =>
              if isBenignPop popOut then
                (t ++ [checkoutCmd d, pullCmd, checkoutCmd c, rebaseCmd d, popCmd],
                 .success)
              else
                (t ++ [checkoutCmd d, pullCmd, checkoutCmd c, rebaseCmd d, popCmd],
                 .failure .StashPopError popOut)
            | (_, none) =>
              (t ++ [checkoutCmd d, pullCmd, checkoutCmd c, rebaseCmd d, popCmd],
               .success)
          else
            (t ++ [checkoutCmd d, pullCmd, checkoutCmd c, rebaseCmd d], .success)

/-- Embedding of the sync command of cmd/sync.go: the ordered trace of git
commands issued, and the terminal outcome. -/
def sync (env : GitEnv) : List (List Str) × Outcome :=
  if IsRepo env then
    match GetDefaultBranch env with
    | .error e => ([wtCmd, remoteShowCmd], .failure .DefaultBranchError e)
    | .ok d =>
      match GetCurrentBranch env with
      | (_, some e) =>
        ([wtCmd, remoteShowCmd, headCmd], .failure .BranchResolutionError e)
      | (c, none) =>
        if c = d then
          match Run env pullCmd with
          | (_, some e) =>
            ([wtCmd, remoteShowCmd, headCmd, pullCmd], .failure .PullError e)
          | (_, none) => ([wtCmd, remoteShowCmd, headCmd, pullCmd], .success)
        else
          match Run env statusCmd with
          | (_, some e) =>
            ([wtCmd, remoteShowCmd, headCmd, statusCmd], .failure .StatusError e)
          | (st, none) =>
            if st = [] then
              syncRest env d c false [wtCmd, remoteShowCmd, headCmd, statusCmd]
            else
              match Run env stashCmd with
              | (_, some e) =>
                ([wtCmd, remoteShowCmd, headCmd, statusCmd, stashCmd],
                 .failure .StashError e)
              | (_, none) =>
                syncRest env d c true
                  [wtCmd, remoteShowCmd, headCmd, statusCmd, stashCmd]
  else ([wtCmd], .failure .NotARepository "This is not a git repository.".data)

/-- The git subcommand name of an argument list (its first element). -/
def cmdName : List Str → Str
  | [] => []
  | n :: _ => n

/-! ### Concrete environments used to witness the theorems -/

/-- A run on branch feature with a clean tree where the rebase fails. -/
def envC1 : GitEnv := fun args =>
  if args = remoteShowCmd then ⟨"HEAD branch: main".data, true⟩
  else if args = headCmd then ⟨"feature".data, true⟩
  else if args = rebaseCmd "main".data then ⟨"CONFLICT in a.txt".data, false⟩
  else ⟨[], true⟩

/-- A fully successful dirty-tree run on branch feature/x with default main. -/
def envC2 : GitEnv := fun args =>
  if args = remoteShowCmd then ⟨"HEAD branch: main".data, true⟩
  else if args = headCmd then ⟨"feature/x".data, true⟩
  else if args = statusCmd then ⟨"M file.txt".data, true⟩
  else ⟨[], true⟩

/-- A run that starts on the default branch main. -/
def envC3 : GitEnv := fun args =>
  if args = remoteShowCmd then ⟨"HEAD branch: main".data, true⟩
  else if args = headCmd then ⟨"main".data, true⟩
  else ⟨[], true⟩

/-- A dirty-tree run where the final stash pop fails with a benign message. -/
def envC4 : GitEnv := fun args =>
  if args = remoteShowCmd then ⟨"HEAD branch: main".data, true⟩
  else if args = headCmd then ⟨"feature".data, true⟩
  else if args = statusCmd then ⟨"M file.txt".data, true⟩
  else if args = popCmd then ⟨"No stash entries found.".data, false⟩
  else ⟨[], true⟩

/-- A dirty-tree run where the checkout of the default branch fails. -/
def envC5 : GitEnv := fun args =>
  if args = remoteShowCmd then ⟨"HEAD branch: main".data, true⟩
  else if args = headCmd then ⟨"feature".data, true⟩
  else if args = statusCmd then ⟨"M file.txt".data, true⟩
  else if args = checkoutCmd "main".data then ⟨"error: pathspec".data, false⟩
  else ⟨[], true⟩

/-- A dirty-tree run where the pull of the default branch fails. -/
def envC6 : GitEnv := fun args =>
  if args = remoteShowCmd then ⟨"HEAD branch: main".data, true⟩
  else if args = headCmd then ⟨"feature".data, true⟩
  else if args = statusCmd then ⟨"M file.txt".data, true⟩
  else if args = pullCmd then ⟨"fatal: unable to access remote".data, false⟩
  else ⟨[], true⟩

/-- A command that succeeds with padded output. -/
def envC7ok : GitEnv := fun _ => ⟨"  Already up to date.\n".data, true⟩

/-- A command that fails with padded output. -/
def envC7fail : GitEnv := fun _ => ⟨"  fatal: not a git repository\n".data, false⟩

/-- A run where the remote query of the default branch fails. -/
def envC8 : GitEnv := fun args =>
  if args = remoteShowCmd then ⟨"fatal: origin does not appear to be a repository".data, false⟩
  else ⟨[], true⟩

/-- A fully successful clean-tree run on branch feature. -/
def envC9 : GitEnv := fun args =>
  if args = remoteShowCmd then ⟨"HEAD branch: main".data, true⟩
  else if args = headCmd then ⟨"feature".data, true⟩
  else ⟨[], true⟩

/-! ### Reduction lemmas for Run -/

theorem run_ok {env : GitEnv} {a : List Str} (h : (env a).ok = true) :
    Run env a = (trimChars (env a).output, none) := by
  simp [Run, h]

theorem run_fail {env : GitEnv} {a : List Str} (h : (env a).ok = false) :
    Run env a = (trimChars (env a).output, some (trimChars (env a).output)) := by
  simp [Run, h]

/-! ### Disequalities between command argument lists -/

theorem pop_ne_wt : popCmd ≠ wtCmd := by decide

theorem pop_ne_remote : popCmd ≠ remoteShowCmd := by decide

theorem pop_ne_head : popCmd ≠ headCmd := by decide

theorem pop_ne_status : popCmd ≠ statusCmd := by decide

theorem pop_ne_stash : popCmd ≠ stashCmd := by decide

theorem pop_ne_pull : popCmd ≠ pullCmd := by decide

theorem stash_ne_wt : stashCmd ≠ wtCmd := by decide

theorem stash_ne_remote : stashCmd ≠ remoteShowCmd := by decide

theorem stash_ne_head : stashCmd ≠ headCmd := by decide

theorem stash_ne_status : stashCmd ≠ statusCmd := by decide

theorem stash_ne_pull : stashCmd ≠ pullCmd := by decide

theorem stash_ne_pop : stashCmd ≠ popCmd := by decide

theorem pop_ne_checkout (b : Str) : popCmd ≠ checkoutCmd b := by
  intro h
  simp only [popCmd, checkoutCmd, List.cons.injEq] at h
  exact absurd h.1 (by decide)

theorem pop_ne_rebase (b : Str) : popCmd ≠ rebaseCmd b := by
  intro h
  simp only [popCmd, rebaseCmd, List.cons.injEq] at h
  exact absurd h.1 (by decide)

theorem stash_ne_checkout (b : Str) : stashCmd ≠ checkoutCmd b := by
  intro h
  simp only [stashCmd, checkoutCmd, List.cons.injEq] at h
  exact absurd h.1 (by decide)

theorem stash_ne_rebase (b : Str) : stashCmd ≠ rebaseCmd b := by
  intro h
  simp only [stashCmd, rebaseCmd, List.cons.injEq] at h
  exact absurd h.1 (by decide)

theorem checkout_ne_wt (b : Str) : checkoutCmd b ≠ wtCmd := by
  intro h
  simp only [checkoutCmd, wtCmd, List.cons.injEq] at h
  exact absurd h.1 (by decide)

theorem checkout_ne_remote (b : Str) : checkoutCmd b ≠ remoteShowCmd := by
  intro h
  simp only [checkoutCmd, remoteShowCmd, List.cons.injEq] at h
  exact absurd h.1 (by decide)

theorem checkout_ne_head (b : Str) : checkoutCmd b ≠ headCmd := by
  intro h
  simp only [checkoutCmd, headCmd, List.cons.injEq] at h
  exact absurd h.1 (by decide)

theorem checkout_ne_status (b : Str) : checkoutCmd b ≠ statusCmd := by
  intro h
  simp only [checkoutCmd, statusCmd, List.cons.injEq] at h
  exact absurd h.1 (by decide)

theorem checkout_ne_stash (b : Str) : checkoutCmd b ≠ stashCmd := by
  intro h
  simp only [checkoutCmd, stashCmd, List.cons.injEq] at h
  exact absurd h.1 (by decide)

theorem checkout_ne_pull (b : Str) : checkoutCmd b ≠ pullCmd := by
  intro h
  simp only [checkoutCmd, pullCmd, List.cons.injEq] at h
  exact absurd h.1 (by decide)

theorem checkout_ne_pop (b : Str) : checkoutCmd b ≠ popCmd := by
  intro h
  simp only [checkoutCmd, popCmd, List.cons.injEq] at h
  exact absurd h.1 (by decide)

theorem checkout_ne_rebase (a b : Str) : checkoutCmd a ≠ rebaseCmd b := by
  intro h
  simp only [checkoutCmd, rebaseCmd, List.cons.injEq] at h
  exact absurd h.1 (by decide)

theorem rebase_ne_pop (b : Str) : rebaseCmd b ≠ popCmd := by
  intro h
  simp only [rebaseCmd, popCmd, List.cons.injEq] at h
  exact absurd h.1 (by decide)

theorem rebase_ne_stash (b : Str) : rebaseCmd b ≠ stashCmd := by
  intro h
  simp only [rebaseCmd, stashCmd, List.cons.injEq] at h
  exact absurd h.1 (by decide)

theorem checkout_inj {a b : Str} : checkoutCmd a = checkoutCmd b ↔ a = b := by
  constructor
  · intro h
    simp only [checkoutCmd, List.cons.injEq] at h
    exact h.2.1
  · intro h; rw [h]

/-! ### Reduction lemmas for the orchestrator -/

theorem sync_shortcircuit (env : GitEnv) (d c : Str)
    (h0 : (env wtCmd).ok = true)
    (h1 : GetDefaultBranch env = .ok d)
    (h2 : GetCurrentBranch env = (c, none))
    (hcd : c = d) :
    (sync env).1 = [wtCmd, remoteShowCmd, headCmd, pullCmd] := by
  unfold sync IsRepo
  rw [h0, h1, h2]
  cases hp : (env pullCmd).ok
  · rw [run_fail hp]
    simp [hcd]
  · rw [run_ok hp]
    simp [hcd]

theorem sync_to_rest_clean (env : GitEnv) (d c : Str)
    (h0 : (env wtCmd).ok = true)
    (h1 : GetDefaultBranch env = .ok d)
    (h2 : GetCurrentBranch env = (c, none))
    (hne : c ≠ d)
    (h3 : Run env statusCmd = ([], none)) :
    sync env = syncRest env d c false [wtCmd, remoteShowCmd, headCmd, statusCmd] := by
  unfold sync IsRepo
  rw [h0, h1, h2, h3]
  simp [hne]

theorem sync_to_rest_dirty (env : GitEnv) (d c st : Str)
    (h0 : (env wtCmd).ok = true)
    (h1 : GetDefaultBranch env = .ok d)
    (h2 : GetCurrentBranch env = (c, none))
    (hne : c ≠ d)
    (h3 : Run env statusCmd = (st, none))
    (hst : st ≠ [])
    (h4 : (env stashCmd).ok = true) :
    sync env =
      syncRest env d c true [wtCmd, remoteShowCmd, headCmd, statusCmd, stashCmd] := by
  unfold sync IsRepo
  rw [h0, h1, h2, h3, run_ok h4]
  simp [hne, hst]

theorem syncRest_checkout_fail (env : GitEnv) (d c : Str) (b : Bool)
    (t : List (List Str))
    (hco : (env (checkoutCmd d)).ok = false) :
    syncRest env d c b t =
      (t ++ (if b then [checkoutCmd d, popCmd] else [checkoutCmd d]),
       .failure .CheckoutError (trimChars (env (checkoutCmd d)).output)) := by
  unfold syncRest
  rw [run_fail hco]
  cases b <;> simp

theorem syncRest_pull_fail (env : GitEnv) (d c : Str) (b : Bool)
    (t : List (List Str))
    (hco : (env (checkoutCmd d)).ok = true)
    (hp : (env pullCmd).ok = false) :
    syncRest env d c b t =
      (t ++ (if b then [checkoutCmd d, pullCmd, checkoutCmd c, popCmd]
             else [checkoutCmd d, pullCmd, checkoutCmd c]),
       .failure .PullError (trimChars (env pullCmd).output)) := by
  unfold syncRest
  rw [run_ok hco, run_fail hp]
  cases b <;> simp

theorem syncRest_checkout_back_fail (env : GitEnv) (d c : Str) (b : Bool)
    (t : List (List Str))
    (hco : (env (checkoutCmd d)).ok = true)
    (hp : (env pullCmd).ok = true)
    (hcc : (env (checkoutCmd c)).ok = false) :
    syncRest env d c b t =
      (t ++ (if b then [checkoutCmd d, pullCmd, checkoutCmd c, popCmd]
             else [checkoutCmd d, pullCmd, checkoutCmd c]),
       .failure .CheckoutError (trimChars (env (checkoutCmd c)).output)) := by
  unfold syncRest
  rw [run_ok hco, run_ok hp, run_fail hcc]
  cases b <;> simp

theorem syncRest_rebase_fail (env : GitEnv) (d c : Str) (b : Bool)
    (t : List (List Str))
    (hco : (env (checkoutCmd d)).ok = true)
    (hp : (env pullCmd).ok = true)
    (hcc : (env (checkoutCmd c)).ok = true)
    (hrb : (env (rebaseCmd d)).ok = false) :
    syncRest env d c b t =
      (t ++ [checkoutCmd d, pullCmd, checkoutCmd c, rebaseCmd d],
       .failure .RebaseConflict (trimChars (env (rebaseCmd d)).output)) := by
  unfold syncRest
  rw [run_ok hco, run_ok hp, run_ok hcc, run_fail hrb]

theorem syncRest_pop_fail (env : GitEnv) (d c : Str)
    (t : List (List Str))
    (hco : (env (checkoutCmd d)).ok = true)
    (hp : (env pullCmd).ok = true)
    (hcc : (env (checkoutCmd c)).ok = true)
    (hrb : (env (rebaseCmd d)).ok = true)
    (hpop : (env popCmd).ok = false) :
    syncRest env d c true t =
      (t ++ [checkoutCmd d, pullCmd, checkoutCmd c, rebaseCmd d, popCmd],
       if isBenignPop (trimChars (env popCmd).output) then .success
       else .failure .StashPopError (trimChars (env popCmd).output)) := by
  unfold syncRest
  rw [run_ok hco, run_ok hp, run_ok hcc, run_ok hrb, run_fail hpop]
  by_cases hb : isBenignPop (trimChars (env popCmd).output) <;> simp [hb]

theorem syncRest_pop_ok (env : GitEnv) (d c : Str)
    (t : List (List Str))
    (hco : (env (checkoutCmd d)).ok = true)
    (hp : (env pullCmd).ok = true)
    (hcc : (env (checkoutCmd c)).ok = true)
    (hrb : (env (rebaseCmd d)).ok = true)
    (hpop : (env popCmd).ok = true) :
    syncRest env d c true t =
      (t ++ [checkoutCmd d, pullCmd, checkoutCmd c, rebaseCmd d, popCmd],
       .success) := by
  unfold syncRest
  rw [run_ok hco, run_ok hp, run_ok hcc, run_ok hrb, run_ok hpop]
  simp

theorem syncRest_clean_success (env : GitEnv) (d c : Str)
    (t : List (List Str))
    (hco : (env (checkoutCmd d)).ok = true)
    (hp : (env pullCmd).ok = true)
    (hcc : (env (checkoutCmd c)).ok = true)
    (hrb : (env (rebaseCmd d)).ok = true) :
    syncRest env d c false t =
      (t ++ [checkoutCmd d, pullCmd, checkoutCmd c, rebaseCmd d], .success) := by
  unfold syncRest
  rw [run_ok hco, run_ok hp, run_ok hcc, run_ok hrb]
  simp

/-! ### Claim theorems -/

/-- Claim C1: in every run of sync in which the rebase command fails, no
stash-pop command is ever issued afterwards regardless of the stash flag,
the failure is reported as a rebase conflict carrying the captured rebase
output, and the process exit code is 1. -/
theorem c1_rebase_fail_no_pop (env : GitEnv) (d c st : Str)
    (h0 : (env wtCmd).ok = true)
    (h1 : GetDefaultBranch env = .ok d)
    (h2 : GetCurrentBranch env = (c, none))
    (hne : c ≠ d)
    (h3 : Run env statusCmd = (st, none))
    (h4 : st ≠ [] → (env stashCmd).ok = true)
    (hco : (env (checkoutCmd d)).ok = true)
    (hp : (env pullCmd).ok = true)
    (hcc : (env (checkoutCmd c)).ok = true)
    (hrb : (env (rebaseCmd d)).ok = false) :
    popCmd ∉ (sync env).1 ∧
    (sync env).2 = .failure .RebaseConflict (trimChars (env (rebaseCmd d)).output) ∧
    exitCode (sync env).2 = 1 := by
  by_cases hst : st = []
  · have h3' : Run env statusCmd = ([], none) := by rw [← hst]; exact h3
    rw [sync_to_rest_clean env d c h0 h1 h2 hne h3',
        syncRest_rebase_fail env d c false _ hco hp hcc hrb]
    refine ⟨?_, rfl, rfl⟩
    simp [List.mem_append, pop_ne_wt, pop_ne_remote, pop_ne_head, pop_ne_status,
      pop_ne_checkout, pop_ne_pull, pop_ne_rebase]
  · rw [sync_to_rest_dirty env d c st h0 h1 h2 hne h3 hst (h4 hst),
        syncRest_rebase_fail env d c true _ hco hp hcc hrb]
    refine ⟨?_, rfl, rfl⟩
    simp [List.mem_append, pop_ne_wt, pop_ne_remote, pop_ne_head, pop_ne_status,
      pop_ne_stash, pop_ne_checkout, pop_ne_pull, pop_ne_rebase]

/-- Witness for C1 at a concrete environment. -/
theorem c1_rebase_fail_no_pop_witness :
    popCmd ∉ (sync envC1).1 ∧
    (sync envC1).2 =
      .failure .RebaseConflict (trimChars (envC1 (rebaseCmd "main".data)).output) ∧
    exitCode (sync envC1).2 = 1 :=
  c1_rebase_fail_no_pop envC1 "main".data "feature".data []
    rfl rfl rfl (by decide) rfl (fun h => absurd rfl h) rfl rfl rfl rfl

/-- Claim C3: when the resolved current branch equals the resolved default
branch, sync performs exactly one pull, never issues a stash, checkout, or
rebase command, and issues no command after the pull. -/
theorem c3_shortcircuit_pull_only (env : GitEnv) (d c : Str)
    (h0 : (env wtCmd).ok = true)
    (h1 : GetDefaultBranch env = .ok d)
    (h2 : GetCurrentBranch env = (c, none))
    (hcd : c = d) :
    (sync env).1.count pullCmd = 1 ∧
    (∀ a ∈ (sync env).1, cmdName a ≠ "stash".data ∧
      cmdName a ≠ "checkout".data ∧ cmdName a ≠ "rebase".data) ∧
    (sync env).1.getLast? = some pullCmd := by
  rw [sync_shortcircuit env d c h0 h1 h2 hcd]
  decide

/-- Witness for C3 at a concrete environment. -/
theorem c3_shortcircuit_pull_only_witness :
    (sync envC3).1.count pullCmd = 1 ∧
    (∀ a ∈ (sync envC3).1, cmdName a ≠ "stash".data ∧
      cmdName a ≠ "checkout".data ∧ cmdName a ≠ "rebase".data) ∧
    (sync envC3).1.getLast? = some pullCmd :=
  c3_shortcircuit_pull_only envC3 "main".data "main".data rfl rfl rfl rfl

/-- Claim C7: the command runner returns the whitespace-trimmed combined
output on zero exit status, and on non-zero exit status fails with an error
message equal to exactly that trimmed combined text. -/
theorem c7_run_contract (env : GitEnv) (args : List Str) :
    ((env args).ok = true →
      Run env args = (trimChars (env args).output, none)) ∧
    ((env args).ok = false →
      Run env args =
        (trimChars (env args).output, some (trimChars (env args).output))) := by
  constructor <;> intro h <;> simp [Run, h]

/-- Witness for C7 at concrete environments, one succeeding and one failing. -/
theorem c7_run_contract_witness :
    Run envC7ok pullCmd = (trimChars (envC7ok pullCmd).output, none) ∧
    Run envC7fail pullCmd =
      (trimChars (envC7fail pullCmd).output,
       some (trimChars (envC7fail pullCmd).output)) :=
  ⟨(c7_run_contract envC7ok pullCmd).1 rfl, (c7_run_contract envC7fail pullCmd).2 rfl⟩

/-- Under a passed repository probe, a failed default-branch resolution stops
sync right after the remote query. -/
theorem sync_default_branch_error (env : GitEnv) (e : Str)
    (h0 : (env wtCmd).ok = true)
    (h : GetDefaultBranch env = .error e) :
    sync env = ([wtCmd, remoteShowCmd], .failure .DefaultBranchError e) := by
  unfold sync IsRepo
  rw [h0, h]
  simp

/-- Claim C8: default-branch resolution fails with a default-branch error
whenever the remote query fails or the marker text is not found in its
output, and then sync terminates with no command issued beyond the probe and
the remote query. -/
theorem c8_default_branch_error_stops (env : GitEnv)
    (h0 : (env wtCmd).ok = true)
    (hfail : (env remoteShowCmd).ok = false ∨
      findSubAfter markerChars (trimChars (env remoteShowCmd).output) = none) :
    ∃ e, GetDefaultBranch env = .error e ∧
      sync env = ([wtCmd, remoteShowCmd], .failure .DefaultBranchError e) := by
  rcases hfail with hq | hm
  · have hE : GetDefaultBranch env =
        .error ("could not query remote origin: ".data ++
          trimChars (env remoteShowCmd).output) := by
      unfold GetDefaultBranch
      rw [run_fail hq]
    exact ⟨_, hE, sync_default_branch_error env _ h0 hE⟩
  · cases hq : (env remoteShowCmd).ok
    · have hE : GetDefaultBranch env =
          .error ("could not query remote origin: ".data ++
            trimChars (env remoteShowCmd).output) := by
        unfold GetDefaultBranch
        rw [run_fail hq]
      exact ⟨_, hE, sync_default_branch_error env _ h0 hE⟩
    · have hx : extractDefaultBranch (trimChars (env remoteShowCmd).output) = none := by
        unfold extractDefaultBranch
        rw [hm]
      have hE : GetDefaultBranch env =
          .error "could not determine default branch from git remote show origin".data := by
        unfold GetDefaultBranch
        rw [run_ok hq]
        simp [hx]
      exact ⟨_, hE, sync_default_branch_error env _ h0 hE⟩

/-- Witness for C8 at a concrete environment whose remote query fails. -/
theorem c8_default_branch_error_stops_witness :
    ∃ e, GetDefaultBranch envC8 = .error e ∧
      sync envC8 = ([wtCmd, remoteShowCmd], .failure .DefaultBranchError e) :=
  c8_default_branch_error_stops envC8 rfl (.inl rfl)

/-- With the stash flag false, no branch of the remaining workflow ever
issues a stash-save or a stash-pop command. -/
theorem syncRest_false_no_stash_pop (env : GitEnv) (d c : Str)
    (t : List (List Str))
    (hs : stashCmd ∉ t) (hp : popCmd ∉ t) :
    stashCmd ∉ (syncRest env d c false t).1 ∧
    popCmd ∉ (syncRest env d c false t).1 := by
  cases hco : (env (checkoutCmd d)).ok
  · rw [syncRest_checkout_fail env d c false t hco]
    constructor <;>
      simp [List.mem_append, hs, hp, stash_ne_checkout, pop_ne_checkout]
  · cases hpl : (env pullCmd).ok
    · rw [syncRest_pull_fail env d c false t hco hpl]
      constructor <;>
        simp [List.mem_append, hs, hp, stash_ne_checkout, pop_ne_checkout,
          stash_ne_pull, pop_ne_pull]
    · cases hcc : (env (checkoutCmd c)).ok
      · rw [syncRest_checkout_back_fail env d c false t hco hpl hcc]
        constructor <;>
          simp [List.mem_append, hs, hp, stash_ne_checkout, pop_ne_checkout,
            stash_ne_pull, pop_ne_pull]
      · cases hrb : (env (rebaseCmd d)).ok
        · rw [syncRest_rebase_fail env d c false t hco hpl hcc hrb]
          constructor <;>
            simp [List.mem_append, hs, hp, stash_ne_checkout, pop_ne_checkout,
              stash_ne_pull, pop_ne_pull, stash_ne_rebase, pop_ne_rebase]
        · rw [syncRest_clean_success env d c t hco hpl hcc hrb]
          constructor <;>
            simp [List.mem_append, hs, hp, stash_ne_checkout, pop_ne_checkout,
              stash_ne_pull, pop_ne_pull, stash_ne_rebase, pop_ne_rebase]

/-- Claim C9: when the current branch differs from the default branch and
the porcelain status output is empty, the stash flag stays false for the
whole run, no stash-save command is issued, and the stash-pop step is
skipped entirely, whatever the later steps do. -/
theorem c9_clean_tree_never_stashes (env : GitEnv) (d c : Str)
    (h0 : (env wtCmd).ok = true)
    (h1 : GetDefaultBranch env = .ok d)
    (h2 : GetCurrentBranch env = (c, none))
    (hne : c ≠ d)
    (h3 : Run env statusCmd = ([], none)) :
    stashCmd ∉ (sync env).1 ∧ popCmd ∉ (sync env).1 ∧
    sync env = syncRest env d c false [wtCmd, remoteShowCmd, headCmd, statusCmd] := by
  have he := sync_to_rest_clean env d c h0 h1 h2 hne h3
  have hm := syncRest_false_no_stash_pop env d c
    [wtCmd, remoteShowCmd, headCmd, statusCmd] (by decide) (by decide)
  rw [he]
  exact ⟨hm.1, hm.2, rfl⟩

/-- Witness for C9 at a concrete environment. -/
theorem c9_clean_tree_never_stashes_witness :
    stashCmd ∉ (sync envC9).1 ∧ popCmd ∉ (sync envC9).1 ∧
    sync envC9 =
      syncRest envC9 "main".data "feature".data false
        [wtCmd, remoteShowCmd, headCmd, statusCmd] :=
  c9_clean_tree_never_stashes envC9 "main".data "feature".data
    rfl rfl rfl (by decide) rfl

/-- Claim C5: when the checkout of the default branch fails, a run that
stashed makes exactly one stash-pop attempt, as the final command, before
terminating with a checkout error; a run that did not stash makes none. -/
theorem c5_checkout_fail_pop_once (env : GitEnv) (d c st : Str)
    (h0 : (env wtCmd).ok = true)
    (h1 : GetDefaultBranch env = .ok d)
    (h2 : GetCurrentBranch env = (c, none))
    (hne : c ≠ d)
    (h3 : Run env statusCmd = (st, none))
    (hcof : (env (checkoutCmd d)).ok = false) :
    ((st ≠ [] ∧ (env stashCmd).ok = true) →
      (sync env).1.count popCmd = 1 ∧
      (sync env).1.getLast? = some popCmd ∧
      (sync env).2 = .failure .CheckoutError (trimChars (env (checkoutCmd d)).output)) ∧
    (st = [] →
      popCmd ∉ (sync env).1 ∧
      (sync env).2 = .failure .CheckoutError (trimChars (env (checkoutCmd d)).output)) := by
  constructor
  · rintro ⟨hst, h4⟩
    rw [sync_to_rest_dirty env d c st h0 h1 h2 hne h3 hst h4,
        syncRest_checkout_fail env d c true _ hcof]
    refine ⟨?_, ?_, rfl⟩
    · simp [List.count_append, List.count_cons, List.count_nil, beq_iff_eq,
        pop_ne_wt, pop_ne_remote, pop_ne_head, pop_ne_status, pop_ne_stash,
        pop_ne_checkout]
    · simp [List.getLast?_append]
  · intro hst
    have h3' : Run env statusCmd = ([], none) := by rw [← hst]; exact h3
    rw [sync_to_rest_clean env d c h0 h1 h2 hne h3',
        syncRest_checkout_fail env d c false _ hcof]
    refine ⟨?_, rfl⟩
    simp [List.mem_append, pop_ne_wt, pop_ne_remote, pop_ne_head, pop_ne_status,
      pop_ne_checkout]

/-- Witness for C5 at a concrete environment with a dirty tree. -/
theorem c5_checkout_fail_pop_once_witness :
    (("M file.txt".data ≠ ([] : Str) ∧ (envC5 stashCmd).ok = true) →
      (sync envC5).1.count popCmd = 1 ∧
      (sync envC5).1.getLast? = some popCmd ∧
      (sync envC5).2 =
        .failure .CheckoutError (trimChars (envC5 (checkoutCmd "main".data)).output)) ∧
    ("M file.txt".data = ([] : Str) →
      popCmd ∉ (sync envC5).1 ∧
      (sync envC5).2 =
        .failure .CheckoutError (trimChars (envC5 (checkoutCmd "main".data)).output)) :=
  c5_checkout_fail_pop_once envC5 "main".data "feature".data "M file.txt".data
    rfl rfl rfl (by decide) rfl rfl

/-- Claim C6: when the pull of the default branch fails, sync issues exactly
one checkout back to the original branch, then exactly one stash-pop when a
stash was made and none otherwise, terminates with a pull error carrying the
pull output, and the outcomes of the compensating commands are ignored. -/
theorem c6_pull_fail_compensates (env : GitEnv) (d c st : Str)
    (h0 : (env wtCmd).ok = true)
    (h1 : GetDefaultBranch env = .ok d)
    (h2 : GetCurrentBranch env = (c, none))
    (hne : c ≠ d)
    (h3 : Run env statusCmd = (st, none))
    (hco : (env (checkoutCmd d)).ok = true)
    (hpf : (env pullCmd).ok = false) :
    ((st ≠ [] ∧ (env stashCmd).ok = true) →
      (sync env).1 = [wtCmd, remoteShowCmd, headCmd, statusCmd, stashCmd,
        checkoutCmd d, pullCmd, checkoutCmd c, popCmd] ∧
      (sync env).1.count (checkoutCmd c) = 1 ∧
      (sync env).1.count popCmd = 1 ∧
      (sync env).2 = .failure .PullError (trimChars (env pullCmd).output)) ∧
    (st = [] →
      (sync env).1 = [wtCmd, remoteShowCmd, headCmd, statusCmd,
        checkoutCmd d, pullCmd, checkoutCmd c] ∧
      (sync env).1.count (checkoutCmd c) = 1 ∧
      popCmd ∉ (sync env).1 ∧
      (sync env).2 = .failure .PullError (trimChars (env pullCmd).output)) := by
  constructor
  · rintro ⟨hst, h4⟩
    rw [sync_to_rest_dirty env d c st h0 h1 h2 hne h3 hst h4,
        syncRest_pull_fail env d c true _ hco hpf]
    refine ⟨rfl, ?_, ?_, rfl⟩
    · simp [List.count_append, List.count_cons, List.count_nil, beq_iff_eq,
        checkout_ne_wt, checkout_ne_remote, checkout_ne_head, checkout_ne_status,
        checkout_ne_stash, checkout_ne_pull, checkout_ne_pop, checkout_inj,
        hne, hne.symm]
    · simp [List.count_append, List.count_cons, List.count_nil, beq_iff_eq,
        pop_ne_wt, pop_ne_remote, pop_ne_head, pop_ne_status, pop_ne_stash,
        pop_ne_checkout, pop_ne_pull]
  · intro hst
    have h3' : Run env statusCmd = ([], none) := by rw [← hst]; exact h3
    rw [sync_to_rest_clean env d c h0 h1 h2 hne h3',
        syncRest_pull_fail env d c false _ hco hpf]
    refine ⟨rfl, ?_, ?_, rfl⟩
    · simp [List.count_append, List.count_cons, List.count_nil, beq_iff_eq,
        checkout_ne_wt, checkout_ne_remote, checkout_ne_head, checkout_ne_status,
        checkout_ne_pull, checkout_inj, hne, hne.symm]
    · simp [List.mem_append, pop_ne_wt, pop_ne_remote, pop_ne_head, pop_ne_status,
        pop_ne_checkout, pop_ne_pull]

/-- Witness for C6 at a concrete environment with a dirty tree. -/
theorem c6_pull_fail_compensates_witness :
    (("M file.txt".data ≠ ([] : Str) ∧ (envC6 stashCmd).ok = true) →
      (sync envC6).1 = [wtCmd, remoteShowCmd, headCmd, statusCmd, stashCmd,
        checkoutCmd "main".data, pullCmd, checkoutCmd "feature".data, popCmd] ∧
      (sync envC6).1.count (checkoutCmd "feature".data) = 1 ∧
      (sync envC6).1.count popCmd = 1 ∧
      (sync envC6).2 = .failure .PullError (trimChars (envC6 pullCmd).output)) ∧
    ("M file.txt".data = ([] : Str) →
      (sync envC6).1 = [wtCmd, remoteShowCmd, headCmd, statusCmd,
        checkoutCmd "main".data, pullCmd, checkoutCmd "feature".data] ∧
      (sync envC6).1.count (checkoutCmd "feature".data) = 1 ∧
      popCmd ∉ (sync envC6).1 ∧
      (sync envC6).2 = .failure .PullError (trimChars (envC6 pullCmd).output)) :=
  c6_pull_fail_compensates envC6 "main".data "feature".data "M file.txt".data
    rfl rfl rfl (by decide) rfl rfl rfl

/-- Claim C4: when the final stash-pop fails, the run succeeds with exit
code 0 if the captured output contains, case-insensitively, one of the three
benign phrases, and otherwise fails with a stash-pop error carrying that
output and exit code 1. -/
theorem c4_pop_fail_benign_or_error (env : GitEnv) (d c st : Str)
    (h0 : (env wtCmd).ok = true)
    (h1 : GetDefaultBranch env = .ok d)
    (h2 : GetCurrentBranch env = (c, none))
    (hne : c ≠ d)
    (h3 : Run env statusCmd = (st, none))
    (hst : st ≠ [])
    (h4 : (env stashCmd).ok = true)
    (hco : (env (checkoutCmd d)).ok = true)
    (hp : (env pullCmd).ok = true)
    (hcc : (env (checkoutCmd c)).ok = true)
    (hrb : (env (rebaseCmd d)).ok = true)
    (hpop : (env popCmd).ok = false) :
    (isBenignPop (trimChars (env popCmd).output) = true →
      (sync env).2 = .success ∧ exitCode (sync env).2 = 0) ∧
    (isBenignPop (trimChars (env popCmd).output) = false →
      (sync env).2 = .failure .StashPopError (trimChars (env popCmd).output) ∧
      exitCode (sync env).2 = 1) := by
  rw [sync_to_rest_dirty env d c st h0 h1 h2 hne h3 hst h4,
      syncRest_pop_fail env d c _ hco hp hcc hrb hpop]
  constructor <;> intro hb <;> simp [hb, exitCode]

/-- Witness for C4 at a concrete environment whose stash pop fails with a
benign message. -/
theorem c4_pop_fail_benign_or_error_witness :
    (isBenignPop (trimChars (envC4 popCmd).output) = true →
      (sync envC4).2 = .success ∧ exitCode (sync envC4).2 = 0) ∧
    (isBenignPop (trimChars (envC4 popCmd).output) = false →
      (sync envC4).2 = .failure .StashPopError (trimChars (envC4 popCmd).output) ∧
      exitCode (sync envC4).2 = 1) :=
  c4_pop_fail_benign_or_error envC4 "main".data "feature".data "M file.txt".data
    rfl rfl rfl (by decide) rfl (by decide) rfl rfl rfl rfl rfl rfl

/-- Counterexample to claim C2 as stated: in the dirty-tree scenario with
current branch feature/x and default main where every git command succeeds,
the full sequence of issued git commands is not
[status, stash, checkout main, pull, checkout feature/x, rebase main,
stash pop]: the three resolution queries are issued before it. -/
theorem c2_counterexample :
    GetDefaultBranch envC2 = .ok "main".data ∧
    GetCurrentBranch envC2 = ("feature/x".data, none) ∧
    (Run envC2 statusCmd).1 ≠ [] ∧
    (sync envC2).2 = .success ∧
    (sync envC2).1 ≠ [statusCmd, stashCmd, checkoutCmd "main".data, pullCmd,
      checkoutCmd "feature/x".data, rebaseCmd "main".data, popCmd] := by
  refine ⟨rfl, rfl, by decide, rfl, by decide⟩

/-- Claim C2 as amended: in every run where the current branch differs from
the default branch, the tree is dirty and every git command succeeds, the
issued sequence is exactly the three resolution queries followed by
[status, stash, checkout default, pull, checkout current, rebase default,
stash pop], and the run succeeds. -/
theorem c2_amended_full_sequence (env : GitEnv) (d c st : Str)
    (h0 : (env wtCmd).ok = true)
    (h1 : GetDefaultBranch env = .ok d)
    (h2 : GetCurrentBranch env = (c, none))
    (hne : c ≠ d)
    (h3 : Run env statusCmd = (st, none))
    (hst : st ≠ [])
    (h4 : (env stashCmd).ok = true)
    (hco : (env (checkoutCmd d)).ok = true)
    (hp : (env pullCmd).ok = true)
    (hcc : (env (checkoutCmd c)).ok = true)
    (hrb : (env (rebaseCmd d)).ok = true)
    (hpop : (env popCmd).ok = true) :
    (sync env).1 = [wtCmd, remoteShowCmd, headCmd] ++
      [statusCmd, stashCmd, checkoutCmd d, pullCmd, checkoutCmd c,
       rebaseCmd d, popCmd] ∧
    (sync env).2 = .success := by
  rw [sync_to_rest_dirty env d c st h0 h1 h2 hne h3 hst h4,
      syncRest_pop_ok env d c _ hco hp hcc hrb hpop]
  exact ⟨rfl, rfl⟩

/-- Witness for the amended C2 at a concrete environment. -/
theorem c2_amended_full_sequence_witness :
    (sync envC2).1 = [wtCmd, remoteShowCmd, headCmd] ++
      [statusCmd, stashCmd, checkoutCmd "main".data, pullCmd,
       checkoutCmd "feature/x".data, rebaseCmd "main".data, popCmd] ∧
    (sync envC2).2 = .success :=
  c2_amended_full_sequence envC2 "main".data "feature/x".data "M file.txt".data
    rfl rfl rfl (by decide) rfl (by decide) rfl rfl rfl rfl rfl rfl

/-! ### The pattern match of GetDefaultBranch, characterised -/

theorem bool_not_true {b : Bool} (h : ¬ b = true) : b = false := by
  cases b
  · rfl
  · exact absurd rfl h

theorem bool_not_false {b : Bool} (h : ¬ b = false) : b = true := by
  cases b
  · exact absurd rfl h
  · rfl

theorem startsWith_iff (p : Str) : ∀ s : Str, startsWith p s = true ↔ ∃ t, s = p ++ t := by
  induction p with
  | nil =>
    intro s
    constructor
    · intro _
      exact ⟨s, rfl⟩
    · intro _
      rfl
  | cons a p ih =>
    intro s
    cases s with
    | nil =>
      constructor
      · intro h
        exact absurd h (by simp [startsWith])
      · rintro ⟨t, ht⟩
        exact absurd ht (by simp)
    | cons b s =>
      constructor
      · intro h
        simp only [startsWith, Bool.and_eq_true, beq_iff_eq] at h
        obtain ⟨hab, hps⟩ := h
        obtain ⟨t, ht⟩ := (ih s).mp hps
        exact ⟨t, by rw [List.cons_append, ← hab, ht]⟩
      · rintro ⟨t, ht⟩
        simp only [List.cons_append, List.cons.injEq] at ht
        obtain ⟨hba, hst⟩ := ht
        simp only [startsWith, Bool.and_eq_true, beq_iff_eq]
        exact ⟨hba.symm, (ih s).mpr ⟨t, hst⟩⟩

theorem findSubAfter_some (pat : Str) :
    ∀ (s rest : Str), findSubAfter pat s = some rest →
      ∃ pre, s = pre ++ pat ++ rest ∧
        ∀ pre' post', s = pre' ++ pat ++ post' → pre.length ≤ pre'.length := by
  intro s
  induction s with
  | nil =>
    intro rest h
    rw [findSubAfter] at h
    by_cases hp : pat = []
    · rw [if_pos hp] at h
      injection h with h1
      refine ⟨[], ?_, fun pre' post' _ => Nat.zero_le _⟩
      rw [hp, ← h1]
      rfl
    · rw [if_neg hp] at h
      exact absurd h (by simp)
  | cons a s ih =>
    intro rest h
    rw [findSubAfter] at h
    by_cases hsw : startsWith pat (a :: s) = true
    · rw [if_pos hsw] at h
      injection h with h1
      obtain ⟨t, ht⟩ := (startsWith_iff pat (a :: s)).mp hsw
      have hrest : rest = t := by
        rw [← h1, ht, List.drop_left]
      refine ⟨[], ?_, fun pre' post' _ => Nat.zero_le _⟩
      rw [hrest, ht]
      rfl
    · rw [if_neg hsw] at h
      obtain ⟨pre, hdec, hmin⟩ := ih rest h
      refine ⟨a :: pre, by simp [hdec], ?_⟩
      intro pre' post' heq
      cases pre' with
      | nil =>
        exfalso
        apply hsw
        exact (startsWith_iff pat (a :: s)).mpr ⟨post', by simpa using heq⟩
      | cons b pre'' =>
        simp only [List.cons_append, List.cons.injEq] at heq
        have := hmin pre'' post' heq.2
        simp only [List.length_cons]
        omega

theorem findSubAfter_of_split (pat : Str) :
    ∀ (pre post s : Str), s = pre ++ pat ++ post →
      ∃ rest, findSubAfter pat s = some rest := by
  intro pre
  induction pre with
  | nil =>
    intro post s hs
    cases pat with
    | nil =>
      cases s with
      | nil => exact ⟨[], by rw [findSubAfter]; simp⟩
      | cons a s => exact ⟨a :: s, by rw [findSubAfter]; simp [startsWith]⟩
    | cons p ps =>
      have hs' : s = p :: (ps ++ post) := by simpa using hs
      have hsw : startsWith (p :: ps) (p :: (ps ++ post)) = true :=
        (startsWith_iff (p :: ps) (p :: (ps ++ post))).mpr ⟨post, rfl⟩
      exact ⟨_, by rw [hs', findSubAfter, if_pos hsw]⟩
  | cons a pre ih =>
    intro post s hs
    have hs' : s = a :: (pre ++ pat ++ post) := by simpa using hs
    by_cases hsw : startsWith pat (a :: (pre ++ pat ++ post)) = true
    · exact ⟨_, by rw [hs', findSubAfter, if_pos hsw]⟩
    · obtain ⟨rest, hR⟩ := ih post (pre ++ pat ++ post) rfl
      exact ⟨rest, by rw [hs', findSubAfter, if_neg hsw]; exact hR⟩

theorem mem_rest_of_split (pat s rest pre' post : Str)
    (hf : findSubAfter pat s = some rest)
    (hs : s = pre' ++ pat ++ post) {ch : Char} (hch : ch ∈ post) : ch ∈ rest := by
  obtain ⟨pre, hdec, hmin⟩ := findSubAfter_some pat s rest hf
  have hle : pre.length ≤ pre'.length := hmin pre' post hs
  have h1 : s.drop (pre.length + pat.length) = rest := by
    rw [hdec, ← List.length_append, List.drop_left]
  have h2 : s.drop (pre'.length + pat.length) = post := by
    rw [hs, ← List.length_append, List.drop_left]
  have h3 : rest.drop (pre'.length - pre.length) = post := by
    rw [← h1, List.drop_drop, ← h2]
    congr 1
    omega
  rw [← h3] at hch
  exact List.mem_of_mem_drop hch

theorem dropWhile_ne_nil_of_mem {p : Char → Bool} {l : Str} {x : Char}
    (hx : x ∈ l) (hpx : p x = false) : l.dropWhile p ≠ [] := by
  intro h
  rw [List.dropWhile_eq_nil_iff] at h
  rw [h x hx] at hpx
  simp at hpx

theorem takeWhile_of_dropWhile_ne_nil {p : Char → Bool} :
    ∀ {l : Str}, l.dropWhile p ≠ [] →
      (l.dropWhile p).takeWhile (fun c => !p c) ≠ [] := by
  intro l
  induction l with
  | nil =>
    intro h
    simp at h
  | cons a l ih =>
    intro h
    rw [List.dropWhile_cons] at h ⊢
    by_cases hpa : p a = true
    · rw [if_pos hpa] at h ⊢
      exact ih h
    · rw [if_neg hpa] at h ⊢
      have hpa' : p a = false := bool_not_true hpa
      rw [List.takeWhile_cons, if_pos (by simp [hpa'])]
      simp

/-- Claim C10: extraction of the default branch name succeeds exactly when
the output contains the HEAD branch: marker followed, after optional
whitespace, by at least one non-whitespace character; on success the result
is the first maximal non-whitespace run after the earliest occurrence of the
marker, hence non-empty and free of whitespace. -/
theorem c10_default_branch_token (s : Str) :
    ((extractDefaultBranch s).isSome = true ↔
      ∃ pre post, s = pre ++ markerChars ++ post ∧
        ∃ ch ∈ post, isRESpace ch = false) ∧
    (∀ tok, extractDefaultBranch s = some tok →
      tok ≠ [] ∧ (∀ ch ∈ tok, isRESpace ch = false) ∧
      ∃ pre post, s = pre ++ markerChars ++ post ∧
        (∀ pre' post', s = pre' ++ markerChars ++ post' →
          pre.length ≤ pre'.length) ∧
        tok = (post.dropWhile isRESpace).takeWhile (fun c => !isRESpace c)) := by
  constructor
  · constructor
    · intro h
      rw [Option.isSome_iff_exists] at h
      obtain ⟨tok, htok⟩ := h
      unfold extractDefaultBranch at htok
      cases hf : findSubAfter markerChars s with
      | none =>
        simp only [hf] at htok
        exact absurd htok (by simp)
      | some rest =>
        simp only [hf] at htok
        by_cases hnil :
            (rest.dropWhile isRESpace).takeWhile (fun c => !isRESpace c) = []
        · rw [if_pos hnil] at htok
          exact absurd htok (by simp)
        · have hdw : rest.dropWhile isRESpace ≠ [] := by
            intro hh
            apply hnil
            rw [hh]
            rfl
          have hex : ∃ ch ∈ rest, isRESpace ch = false := by
            by_contra hc
            push_neg at hc
            exact hdw (List.dropWhile_eq_nil_iff.mpr
              (fun x hx => bool_not_false (hc x hx)))
          obtain ⟨ch, hch, hns⟩ := hex
          obtain ⟨pre, hdec, _⟩ := findSubAfter_some markerChars s rest hf
          exact ⟨pre, rest, hdec, ch, hch, hns⟩
    · rintro ⟨pre, post, hs, ch, hch, hns⟩
      obtain ⟨rest, hf⟩ := findSubAfter_of_split markerChars pre post s hs
      have hcr : ch ∈ rest := mem_rest_of_split markerChars s rest pre post hf hs hch
      have hdw : rest.dropWhile isRESpace ≠ [] := dropWhile_ne_nil_of_mem hcr hns
      have htw := takeWhile_of_dropWhile_ne_nil hdw
      unfold extractDefaultBranch
      simp only [hf]
      rw [if_neg htw]
      rfl
  · intro tok htok
    unfold extractDefaultBranch at htok
    cases hf : findSubAfter markerChars s with
    | none =>
      simp only [hf] at htok
      exact absurd htok (by simp)
    | some rest =>
      simp only [hf] at htok
      by_cases hnil :
          (rest.dropWhile isRESpace).takeWhile (fun c => !isRESpace c) = []
      · rw [if_pos hnil] at htok
        exact absurd htok (by simp)
      · rw [if_neg hnil] at htok
        injection htok with htok
        subst htok
        refine ⟨hnil, ?_, ?_⟩
        · intro ch hch
          have := List.mem_takeWhile_imp hch
          simpa using this
        · obtain ⟨pre, hdec, hmin⟩ := findSubAfter_some markerChars s rest hf
          exact ⟨pre, rest, hdec, hmin, rfl⟩

/-- Witness for C10 at a concrete remote-show output. -/
theorem c10_default_branch_token_witness :
    (extractDefaultBranch "xx HEAD branch:\n  main\nyy".data).isSome = true ∧
    "main".data ≠ ([] : Str) :=
  ⟨((c10_default_branch_token "xx HEAD branch:\n  main\nyy".data).1).mpr
      ⟨"xx ".data, "\n  main\nyy".data, by decide, 'm', by decide, by decide⟩,
   ((c10_default_branch_token "xx HEAD branch:\n  main\nyy".data).2
      "main".data (by decide)).1⟩

end GitSmart
